import Mathlib

/-!
Shallow embedding of the task distribution / workload-balancing engine of the
policy-persistency repository (`TaskDistributionService` and the
`RETENTION_TEAM` configuration).

Modelling conventions for the JavaScript source:
* JS numbers are idealised as exact rationals (`ℚ`); the float literals
  `0.2`, `0.5`, `0.3` become `1/5`, `1/2`, `3/10`.
* A field that may be absent (`undefined`) is an `Option`.
* A function that can throw a `TypeError` returns `Except Unit α`;
  `.error ()` is a thrown exception, `.ok none` is a normal return of
  `undefined`, and `.ok (some x)` is a normal return of `x`.
* A JS object used as an ordered string-keyed map is a `List (String × _)`
  in insertion order; since JS object keys are unique, indexing
  `workloadAnalysis[member]` for `member` a key of the very roster object the
  analysis was built from is modelled by pairing the roster entry with the
  stat built for it (`statFor`).
* `Array.prototype.sort` is stable (ES2019), so it is modelled by a stable
  insertion sort; a comparator `(a, b) => f(a) - f(b)` becomes the boolean
  test `f a ≤ f b` ("a may stay in front of b"), and a comparator that
  returns `NaN` is treated as returning `+0`, as the ECMAScript
  `SortCompare` operation prescribes.
-/

/-- One value of the `RETENTION_TEAM` configuration object:
declared specialties and task capacity of a team member. -/
structure MemberData where
  specialties : List String
  capacity : Nat
deriving DecidableEq

/-- A roster: the keys/values of a `RETENTION_TEAM`-shaped object in
insertion order. -/
abbrev Roster := List (String × MemberData)

/-- The configured `RETENTION_TEAM` object of the source. -/
def RETENTION_TEAM : Roster :=
  [("Mark Vallejo", ⟨["high-value", "commercial"], 15⟩),
   ("Monica Archuleta", ⟨["nsf", "payment-issues"], 20⟩),
   ("Stephen Brown", ⟨["cancellation", "retention"], 18⟩)]

/-- A task descriptor handed to an assignment strategy; every field may be
absent, mirroring the duck-typed JS access. -/
structure TaskDesc where
  type : Option String
  priority : Option String
  premium : Option ℚ
deriving DecidableEq

/-- An existing task of the snapshot (`existingTasks`). -/
structure ETask where
  id : Nat
  type : Option String
  priority : Option String
  premium : Option ℚ
  assignedTo : Option String
  status : Option String
deriving DecidableEq

/-- The task-descriptor part of an existing task (the fields
`findSpecialtyMatches` reads). -/
def ETask.toTask (t : ETask) : TaskDesc := ⟨t.type, t.priority, t.premium⟩

/-- JS `s.includes(sub)`: substring test. -/
def strIncludes (s sub : String) : Bool := decide (List.IsInfix sub.toList s.toList)

/-- JS `premium >= 5000` where `premium` may be `undefined`
(`undefined >= 5000` is `false`). -/
def premGE5000 : Option ℚ → Bool
  | some v => decide ((5000 : ℚ) ≤ v)
  | none => false

/-- `getPriorityMultiplier` (source lines 281-292); any unrecognised or
absent priority falls to the `default` branch, 1.0. -/
def getPriorityMultiplier (priority : Option String) : ℚ :=
  if priority = some "high" then 3/2
  else if priority = some "medium" then 1
  else if priority = some "low" then 4/5
  else 1

/-- Insert `x` into `l` behind every element `y` with `le y x`; the
insertion step of a stable insertion sort. -/
def insertLe (le : α → α → Bool) (x : α) : List α → List α
  | [] => [x]
  | y :: ys => if le y x then y :: insertLe le x ys else x :: y :: ys

/-- Stable sort modelling `Array.prototype.sort` with comparator `c`,
where `le a b` means `c a b ≤ 0` ("a may stay in front of b"). -/
def stableSort (le : α → α → Bool) (l : List α) : List α :=
  l.foldl (fun acc x => insertLe le x acc) []

/-- The per-member record built by `analyzeCurrentWorkload`
(source lines 195-210). -/
structure WorkloadStat where
  name : String
  capacity : Nat
  assigned : Nat
  utilizationPercent : ℚ
  available : Nat
  tasksHigh : Nat
  tasksMedium : Nat
  tasksLow : Nat
  tasksTotal : Nat
  avgPremium : ℚ
  totalPremium : ℚ
  specialties : List String
deriving DecidableEq

/-- The stat `analyzeCurrentWorkload` builds for one roster entry
(source lines 167-210).  `available` uses truncated `Nat` subtraction,
which is exactly `Math.max(0, capacity - assigned)`.  Note that ℚ division
by zero is 0 where JS would produce `NaN`/`Infinity`; every configured
capacity is positive, so the difference is unreachable in the claims. -/
def statFor (existingTasks : List ETask) (p : String × MemberData) : WorkloadStat :=
  let memberTasks := existingTasks.filter
    (fun t => t.assignedTo == some p.1 && t.status == some "open")
  let capacity := p.2.capacity
  let assigned := memberTasks.length
  let utilizationPercent : ℚ := (assigned : ℚ) / (capacity : ℚ) * 100
  let highPriority := (memberTasks.filter (fun t => t.priority == some "high")).length
  let mediumPriority := (memberTasks.filter (fun t => t.priority == some "medium")).length
  let lowPriority := (memberTasks.filter (fun t => t.priority == some "low")).length
  let totalPremium : ℚ := (memberTasks.map (fun t => t.premium.getD 0)).sum
  let avgPremium : ℚ := if 0 < memberTasks.length then totalPremium / (memberTasks.length : ℚ) else 0
  { name := p.1
    capacity := capacity
    assigned := assigned
    utilizationPercent := utilizationPercent
    available := capacity - assigned
    tasksHigh := highPriority
    tasksMedium := mediumPriority
    tasksLow := lowPriority
    tasksTotal := memberTasks.length
    avgPremium := avgPremium
    totalPremium := totalPremium
    specialties := p.2.specialties }

/-- `analyzeCurrentWorkload` (source lines 164-214): one stat per roster
entry, in roster order. -/
def analyzeCurrentWorkload (roster : Roster) (existingTasks : List ETask) : List WorkloadStat :=
  roster.map (statFor existingTasks)

/-- The if-chain body of `findSpecialtyMatches` for one member
(source lines 223-253), given a present task type. -/
def memberMatchesTask (ty : String) (premium : Option ℚ) (specialties : List String) : Bool :=
  (strIncludes ty "nsf" && specialties.contains "nsf") ||
  (strIncludes ty "cancellation" && specialties.contains "cancellation") ||
  (strIncludes ty "retention" && specialties.contains "retention") ||
  (premGE5000 premium && specialties.contains "high-value") ||
  (strIncludes ty "payment" && specialties.contains "payment-issues") ||
  (strIncludes ty "commercial" && specialties.contains "commercial")

/-- `findSpecialtyMatches` (source lines 217-257).  With a non-empty roster
and an absent `task.type`, the first `task.type.includes(...)` throws a
`TypeError`; with an empty roster the loop body never runs.  The JS code
pushes a member once per satisfied rule and dedups through a `Set`, which
preserves first-occurrence (= roster) order, so the result is the roster
order filter. -/
def findSpecialtyMatches (roster : Roster) (task : TaskDesc) : Except Unit (List String) :=
  if roster = [] then .ok []
  else
    match task.type with
    | none => .error ()
    | some ty =>
      .ok ((roster.filter (fun p => memberMatchesTask ty task.premium p.2.specialties)).map (·.1))

/-- Ascending comparator `(a, b) => a.utilizationPercent - b.utilizationPercent`. -/
def utilAsc (a b : WorkloadStat) : Bool := decide (a.utilizationPercent ≤ b.utilizationPercent)

/-- Descending comparator `(a, b) => b.utilizationPercent - a.utilizationPercent`. -/
def utilDesc (a b : WorkloadStat) : Bool := decide (b.utilizationPercent ≤ a.utilizationPercent)

/-- `roundRobinAssignment` (source lines 59-65), as a function of the
mutable counter `lastAssignedIndex`.  On an empty roster JS evaluates
`teamMembers[idx % 0] = teamMembers[NaN]`, i.e. returns `undefined`. -/
def roundRobinAssignment (roster : Roster) (lastAssignedIndex : Nat) : Option String :=
  (roster.map (·.1)).get? (lastAssignedIndex % roster.length)

/-- `getAvailableMembers` (source lines 260-264): members under 100%
utilization, sorted ascending by utilization. -/
def getAvailableMembers (workloadAnalysis : List WorkloadStat) : List WorkloadStat :=
  stableSort utilAsc (workloadAnalysis.filter (fun m => decide (m.utilizationPercent < 100)))

/-- `getLeastLoadedMember` (source lines 267-271); `[0].name` on an empty
analysis throws a `TypeError`. -/
def getLeastLoadedMember (workloadAnalysis : List WorkloadStat) : Except Unit String :=
  match stableSort utilAsc workloadAnalysis with
  | [] => .error ()
  | st :: _ => .ok st.name

/-- `getLeastLoadedFromList` (source lines 274-278), already resolved to
stats; `[0].name` on an empty list throws a `TypeError`. -/
def getLeastLoadedFromListStats (memberStats : List WorkloadStat) : Except Unit String :=
  match stableSort utilAsc memberStats with
  | [] => .error ()
  | st :: _ => .ok st.name

/-- `loadBalancedAssignment` (source lines 68-79).  The `task` parameter is
accepted and ignored, as in the source. -/
def loadBalancedAssignment (roster : Roster) (task : TaskDesc) (existingTasks : List ETask) :
    Except Unit (Option String) :=
  match getAvailableMembers (analyzeCurrentWorkload roster existingTasks) with
  | [] => (getLeastLoadedMember (analyzeCurrentWorkload roster existingTasks)).map some
  | st :: _ => .ok (some st.name)

/-- The `availableSpecialists` local of `specialtyFirstAssignment`
(source lines 87-90): the specialty matches whose utilization is under
100%, as stats of the workload analysis. -/
def availableSpecialists (roster : Roster) (specialtyMatches : List String)
    (existingTasks : List ETask) : List WorkloadStat :=
  ((analyzeCurrentWorkload roster existingTasks).filter
    (fun st => specialtyMatches.contains st.name)).filter
    (fun st => decide (st.utilizationPercent < 100))

/-- `specialtyFirstAssignment` (source lines 82-101). -/
def specialtyFirstAssignment (roster : Roster) (task : TaskDesc) (existingTasks : List ETask) :
    Except Unit (Option String) :=
  match findSpecialtyMatches roster task with
  | .error e => .error e
  | .ok specialtyMatches =>
    match availableSpecialists roster specialtyMatches existingTasks with
    | [] => loadBalancedAssignment roster task existingTasks
    | st :: rest => (getLeastLoadedFromListStats (st :: rest)).map some

/-- The head of the entries of a score map sorted descending by score
(`Object.entries(scores).sort(([, a], [, b]) => b - a).map(([name]) => name)[0]`).
Ties keep insertion (= roster) order because the sort is stable. -/
def pickFirstMax (scores : List (String × ℚ)) : Option String :=
  ((stableSort (fun a b => decide (b.2 ≤ a.2)) scores).map (·.1)).head?

/-- The per-member score of `calculateMemberScores` (source lines 298-315). -/
def memberScore (task : TaskDesc) (isSpecialist : Bool) (workload : WorkloadStat) : ℚ :=
  max 0 ((workload.available : ℚ)
    + (if isSpecialist then 10 else 0)
    + (if task.priority = some "high" then 5 else 0)
    + (if premGE5000 task.premium then 3 else 0))

/-- `calculateMemberScores` (source lines 295-318).  The source calls
`findSpecialtyMatches` per member inside the loop; it is hoisted here —
same value each iteration, and the throw condition (non-empty roster with
absent type) is unchanged since an empty roster runs no iteration. -/
def calculateMemberScores (roster : Roster) (task : TaskDesc) (existingTasks : List ETask) :
    Except Unit (List (String × ℚ)) :=
  match findSpecialtyMatches roster task with
  | .error e => .error e
  | .ok specialtyMatches =>
    .ok (roster.map (fun p =>
      (p.1, memberScore task (specialtyMatches.contains p.1) (statFor existingTasks p))))

/-- `priorityWeightedAssignment` (source lines 104-114); `sortedMembers[0]`
is `undefined` (not a throw) on an empty roster. -/
def priorityWeightedAssignment (roster : Roster) (task : TaskDesc) (existingTasks : List ETask) :
    Except Unit (Option String) :=
  match calculateMemberScores roster task existingTasks with
  | .error e => .error e
  | .ok scores => .ok (pickFirstMax scores)

/-- The per-member hybrid score (source lines 124-155): availability base,
+50 specialty bonus, the hard-coded `member === "Mark Vallejo" &&
task.premium >= 5000` +30 bonus, priority multiplier, then the two
multiplicative overload penalties. -/
def hybridMemberScore (member : String) (isSpecialist : Bool) (utilizationPercent : ℚ)
    (task : TaskDesc) : ℚ :=
  let priorityMultiplier := getPriorityMultiplier task.priority
  let base : ℚ := max 0 (100 - utilizationPercent)
  let withSpecialty := base + (if isSpecialist then 50 else 0)
  let withBonus := withSpecialty +
    (if member == "Mark Vallejo" && premGE5000 task.premium then (30 : ℚ) else 0)
  let weighted := withBonus * priorityMultiplier
  let after100 := if 100 < utilizationPercent then weighted * (1/2) else weighted
  if 150 < utilizationPercent then after100 * (3/10) else after100

/-- `hybridAssignment` (source lines 117-161). -/
def hybridAssignment (roster : Roster) (task : TaskDesc) (existingTasks : List ETask) :
    Except Unit (Option String) :=
  match findSpecialtyMatches roster task with
  | .error e => .error e
  | .ok specialtyMatches =>
    .ok (pickFirstMax (roster.map (fun p =>
      (p.1, hybridMemberScore p.1 (specialtyMatches.contains p.1)
        (statFor existingTasks p).utilizationPercent task))))

/-- `distributeTask` (source lines 39-56).  `strategy || this.currentStrategy`
makes any falsy strategy argument (absent, `null`, or the empty string)
fall back to the service's current strategy; the `switch` sends every
unrecognised strategy string to `hybridAssignment`. -/
def distributeTask (roster : Roster) (currentStrategy : String) (strategy : Option String)
    (task : TaskDesc) (existingTasks : List ETask) (lastAssignedIndex : Nat) :
    Except Unit (Option String) :=
  let activeStrategy := match strategy with
    | none => currentStrategy
    | some s => if s = "" then currentStrategy else s
  if activeStrategy = "round_robin" then .ok (roundRobinAssignment roster lastAssignedIndex)
  else if activeStrategy = "load_balanced" then loadBalancedAssignment roster task existingTasks
  else if activeStrategy = "specialty_first" then specialtyFirstAssignment roster task existingTasks
  else if activeStrategy = "priority_weighted" then priorityWeightedAssignment roster task existingTasks
  else if activeStrategy = "hybrid" then hybridAssignment roster task existingTasks
  else hybridAssignment roster task existingTasks

/-- A proposed move of the redistribution engine (`redistributions.push`
at source lines 358-363).  The source field names are `from`/`to`; `from`
is a reserved word in Lean, hence `fromName`/`toName`. -/
structure Redistribution where
  taskId : Nat
  fromName : String
  toName : String
  reason : String
deriving DecidableEq

/-- The mutable `assigned` fields of the `workloadAnalysis` object during
`redistributeTasks`, as an association list keyed by member name. -/
abbrev Counts := List (String × Int)

/-- Read `workloadAnalysis[name].assigned`. -/
def lookupCount (counts : Counts) (name : String) : Option Int :=
  (counts.find? (fun p => p.1 == name)).map (·.2)

/-- Add `d` to `workloadAnalysis[name].assigned` (JS `++`/`--` on the
single entry with that key; keys are unique in a JS object). -/
def bumpCount (counts : Counts) (name : String) (d : Int) : Counts :=
  counts.map (fun p => if p.1 = name then (p.1, p.2 + d) else p)

/-- `priorityOrder[task.priority]` (source line 343): `undefined` for an
absent or unrecognised priority. -/
def jsPriorityOrder : Option String → Option Nat
  | some "low" => some 1
  | some "medium" => some 2
  | some "high" => some 3
  | _ => none

/-- Comparator of the redistribution task sort (source lines 342-345):
`priorityOrder[a.priority] - priorityOrder[b.priority]`, ascending; a `NaN`
comparator value (either priority unmapped) is treated as `+0`, so such
pairs keep their relative order under the stable sort. -/
def prioLe (a b : ETask) : Bool :=
  match jsPriorityOrder a.priority, jsPriorityOrder b.priority with
  | some x, some y => decide (x ≤ y)
  | _, _ => true

/-- JS `l.slice(0, e)`: a negative `e` counts from the end, a non-negative
`e` is a plain prefix length. -/
def jsSlice0 (e : Int) (l : List α) : List α :=
  if e < 0 then l.take ((l.length : Int) + e).toNat else l.take e.toNat

/-- `findBestRedistributionTarget` (source lines 376-390).  It receives the
workload analysis (here: the live `counts`) as its third argument but never
reads it: the choice depends only on the task's specialty matches and the
order of the (never re-sorted) underloaded list. -/
def findBestRedistributionTarget (roster : Roster) (task : ETask)
    (underloadedMembers : List WorkloadStat) (counts : Counts) :
    Except Unit (Option String) :=
  match findSpecialtyMatches roster task.toTask with
  | .error e => .error e
  | .ok specialtyMatches =>
    match underloadedMembers.filter (fun m => specialtyMatches.contains m.name) with
    | m :: _ => .ok (some m.name)
    | [] =>
      match underloadedMembers with
      | u :: _ => .ok (some u.name)
      | [] => .ok none

/-- One iteration of the inner `sortedTasks.slice(0, tasksToMove).forEach`
loop of `redistributeTasks` (source lines 350-369): pick a target, push a
`Redistribution`, and update the two `assigned` counts. -/
def moveStep (roster : Roster) (underloadedMembers : List WorkloadStat) (oName : String)
    (acc : List Redistribution × Counts) (task : ETask) :
    Except Unit (List Redistribution × Counts) :=
  match findBestRedistributionTarget roster task underloadedMembers acc.2 with
  | .error e => .error e
  | .ok none => .ok acc
  | .ok (some bestTarget) =>
    .ok (acc.1 ++ [⟨task.id, oName, bestTarget, "Load balancing"⟩],
         bumpCount (bumpCount acc.2 oName (-1)) bestTarget 1)

/-- One iteration of the outer `overloaded.forEach` loop of
`redistributeTasks` (source lines 335-370).  `tasksToMove` reads the live
`overloadedMember.assigned` count (`Math.floor(assigned * 0.2)`); a missing
key would give `slice(0, NaN)`, i.e. no tasks. -/
def processOverloaded (roster : Roster) (existingTasks : List ETask)
    (underloadedMembers : List WorkloadStat) (acc : List Redistribution × Counts)
    (o : WorkloadStat) : Except Unit (List Redistribution × Counts) :=
  let memberTasks := existingTasks.filter
    (fun t => t.assignedTo == some o.name && t.status == some "open")
  let sortedTasks := stableSort prioLe memberTasks
  let tasksToMove : Int :=
    match lookupCount acc.2 o.name with
    | some c => Int.floor ((c : ℚ) * (1/5))
    | none => 0
  (jsSlice0 tasksToMove sortedTasks).foldlM (moveStep roster underloadedMembers o.name) acc

/-- `redistributeTasks` (source lines 321-373) together with the final
state of the mutated `assigned` counts of its local workload analysis. -/
def redistributeTasksAux (roster : Roster) (existingTasks : List ETask)
    (maxImbalancePercent : ℚ) : Except Unit (List Redistribution × Counts) :=
  let workloadAnalysis := analyzeCurrentWorkload roster existingTasks
  let overloaded := stableSort utilDesc
    (workloadAnalysis.filter (fun m => decide (100 + maxImbalancePercent < m.utilizationPercent)))
  let underloaded := stableSort utilAsc
    (workloadAnalysis.filter (fun m => decide (m.utilizationPercent < 100 - maxImbalancePercent)))
  overloaded.foldlM (processOverloaded roster existingTasks underloaded)
    ([], workloadAnalysis.map (fun st => (st.name, (st.assigned : Int))))

/-- `redistributeTasks` (source lines 321-373): the returned list of
proposed moves. -/
def redistributeTasks (roster : Roster) (existingTasks : List ETask)
    (maxImbalancePercent : ℚ) : Except Unit (List Redistribution) :=
  (redistributeTasksAux roster existingTasks maxImbalancePercent).map (·.1)

/-- `calculateBalanceScore` (source lines 418-431): 100 minus the
population standard deviation of the utilization percentages, floored at 0.
The mean and variance are exact rationals; `Math.sqrt` is the real square
root, which makes this the one non-executable definition. -/
noncomputable def calculateBalanceScore (workloadAnalysis : List WorkloadStat) : ℝ :=
  let utilizations := workloadAnalysis.map (·.utilizationPercent)
  let avg : ℚ := utilizations.sum / (utilizations.length : ℚ)
  let variance : ℚ :=
    (utilizations.map (fun u => (u - avg) ^ 2)).sum / (utilizations.length : ℚ)
  max 0 (100 - Real.sqrt (variance : ℝ))

deriving instance DecidableEq for Except

/-! ### Generic facts about the stable sort -/

theorem insertLe_perm (le : α → α → Bool) (x : α) (l : List α) :
    (insertLe le x l).Perm (x :: l) := by
  induction l with
  | nil => exact List.Perm.refl _
  | cons y ys ih =>
    unfold insertLe
    by_cases h : le y x = true
    · simp only [h, if_true]
      exact (ih.cons y).trans (List.Perm.swap x y ys)
    · simp only [h, if_false]
      exact List.Perm.refl _

theorem foldl_insertLe_perm (le : α → α → Bool) (l : List α) :
    ∀ acc : List α, (l.foldl (fun acc x => insertLe le x acc) acc).Perm (acc ++ l) := by
  induction l with
  | nil => intro acc; simp
  | cons x xs ih =>
    intro acc
    have h1 := ih (insertLe le x acc)
    have h2 : (insertLe le x acc ++ xs).Perm (acc ++ x :: xs) :=
      (List.Perm.append_right xs (insertLe_perm le x acc)).trans List.perm_middle.symm
    exact h1.trans h2

theorem stableSort_perm (le : α → α → Bool) (l : List α) : (stableSort le l).Perm l := by
  have h := foldl_insertLe_perm le l []
  simpa [stableSort] using h

theorem mem_stableSort (le : α → α → Bool) (l : List α) (a : α) :
    a ∈ stableSort le l ↔ a ∈ l := (stableSort_perm le l).mem_iff

theorem stableSort_ne_nil (le : α → α → Bool) (l : List α) (h : l ≠ []) :
    stableSort le l ≠ [] := by
  intro hc
  have hlen := (stableSort_perm le l).length_eq
  rw [hc] at hlen
  exact h (List.length_eq_zero.mp hlen.symm)

theorem stableSort_nodup (le : α → α → Bool) (l : List α) (h : l.Nodup) :
    (stableSort le l).Nodup := ((stableSort_perm le l).nodup_iff).mpr h

/-- The head of the descending-sorted score entries is the name of some
score entry. -/
theorem pickFirstMax_mem (scores : List (String × ℚ)) (h : scores ≠ []) :
    ∃ n, pickFirstMax scores = some n ∧ n ∈ scores.map Prod.fst := by
  cases hE : stableSort (fun a b => decide (b.2 ≤ a.2)) scores with
  | nil => exact absurd hE (stableSort_ne_nil _ scores h)
  | cons s rest =>
    refine ⟨s.1, by simp [pickFirstMax, hE], ?_⟩
    have hmem : s ∈ stableSort (fun a b => decide (b.2 ≤ a.2)) scores := by
      rw [hE]; exact List.mem_cons_self s rest
    exact List.mem_map_of_mem Prod.fst ((mem_stableSort _ _ _).mp hmem)

/-- The names of the workload analysis are exactly the roster names, in
order. -/
theorem analyze_names (roster : Roster) (existingTasks : List ETask) :
    (analyzeCurrentWorkload roster existingTasks).map (·.name) = roster.map Prod.fst := by
  unfold analyzeCurrentWorkload
  rw [List.map_map]
  rfl

/-! ### Claim theorems -/

section ClaimProofs

attribute [local semireducible] Rat.add Rat.mul Rat.inv Rat.sub Rat.ofScientific

/-- The spec's attribute-based formulation of the hybrid +30 bonus:
"+30 if premium ≥ 5000 AND member specialties include high-value", in
place of the source's hard-coded name check.  Kept for comparison with
`hybridMemberScore`. -/
def hybridMemberScoreAttr (specialties : List String) (isSpecialist : Bool)
    (utilizationPercent : ℚ) (task : TaskDesc) : ℚ :=
  let priorityMultiplier := getPriorityMultiplier task.priority
  let base : ℚ := max 0 (100 - utilizationPercent)
  let withSpecialty := base + (if isSpecialist then 50 else 0)
  let withBonus := withSpecialty +
    (if specialties.contains "high-value" && premGE5000 task.premium then (30 : ℚ) else 0)
  let weighted := withBonus * priorityMultiplier
  let after100 := if 100 < utilizationPercent then weighted * (1/2) else weighted
  if 150 < utilizationPercent then after100 * (3/10) else after100

/-- Claim C1: over the configured roster, a member's hybrid score receives
the +30 bonus exactly when the member's declared specialties include
"high-value" and the task premium is at least 5000: Mark Vallejo is the
only member with the "high-value" specialty, so the source's name-based
check and the attribute-based rule give every member the same score on
every task. -/
theorem claim1_hybrid_bonus_matches_attribute_rule :
    ∀ p ∈ RETENTION_TEAM,
      ((p.1 = "Mark Vallejo") ↔ "high-value" ∈ p.2.specialties)
      ∧ ∀ (isSpecialist : Bool) (u : ℚ) (task : TaskDesc),
          hybridMemberScore p.1 isSpecialist u task
            = hybridMemberScoreAttr p.2.specialties isSpecialist u task := by
  intro p hp
  simp only [RETENTION_TEAM, List.mem_cons, List.not_mem_nil, or_false] at hp
  rcases hp with h | h | h <;> subst h <;>
    refine ⟨by decide, fun isSpecialist u task => ?_⟩ <;>
    simp [hybridMemberScore, hybridMemberScoreAttr, List.contains]

/-- Witness for C1 at the concrete member Mark Vallejo and a concrete
task. -/
theorem claim1_witness :
    hybridMemberScore "Mark Vallejo" false 0 ⟨some "t", some "medium", some 6000⟩
      = hybridMemberScoreAttr ["high-value", "commercial"] false 0
          ⟨some "t", some "medium", some 6000⟩ :=
  (claim1_hybrid_bonus_matches_attribute_rule ("Mark Vallejo", ⟨["high-value", "commercial"], 15⟩)
    (by decide)).2 false 0 ⟨some "t", some "medium", some 6000⟩

/-! ### Task-observation congruence lemmas: the strategies read a task only
through its type string, its priority multiplier, the `priority === "high"`
test and the `premium >= 5000` test. -/

theorem findSpecialtyMatches_congr (roster : Roster) (t₁ t₂ : TaskDesc)
    (hty : t₁.type = t₂.type) (hpm : premGE5000 t₁.premium = premGE5000 t₂.premium) :
    findSpecialtyMatches roster t₁ = findSpecialtyMatches roster t₂ := by
  by_cases hr : roster = []
  · simp [findSpecialtyMatches, hr]
  · simp only [findSpecialtyMatches, hr, if_false]
    rw [hty]
    cases t₂.type with
    | none => rfl
    | some ty => simp only [memberMatchesTask, hpm]

theorem hybridMemberScore_congr (t₁ t₂ : TaskDesc)
    (hml : getPriorityMultiplier t₁.priority = getPriorityMultiplier t₂.priority)
    (hpm : premGE5000 t₁.premium = premGE5000 t₂.premium) (n : String) (s : Bool) (u : ℚ) :
    hybridMemberScore n s u t₁ = hybridMemberScore n s u t₂ := by
  unfold hybridMemberScore
  rw [hml, hpm]

theorem memberScore_congr (t₁ t₂ : TaskDesc)
    (hh : (t₁.priority = some "high") = (t₂.priority = some "high"))
    (hpm : premGE5000 t₁.premium = premGE5000 t₂.premium) (s : Bool) (st : WorkloadStat) :
    memberScore t₁ s st = memberScore t₂ s st := by
  simp only [memberScore, hh, hpm]

theorem loadBalanced_congr (roster : Roster) (t₁ t₂ : TaskDesc) (existingTasks : List ETask) :
    loadBalancedAssignment roster t₁ existingTasks
      = loadBalancedAssignment roster t₂ existingTasks := rfl

theorem specialtyFirst_congr (roster : Roster) (t₁ t₂ : TaskDesc)
    (hty : t₁.type = t₂.type) (hpm : premGE5000 t₁.premium = premGE5000 t₂.premium)
    (existingTasks : List ETask) :
    specialtyFirstAssignment roster t₁ existingTasks
      = specialtyFirstAssignment roster t₂ existingTasks := by
  unfold specialtyFirstAssignment
  rw [findSpecialtyMatches_congr roster t₁ t₂ hty hpm]
  cases findSpecialtyMatches roster t₂ with
  | error e => rfl
  | ok ms => rfl

theorem priorityWeighted_congr (roster : Roster) (t₁ t₂ : TaskDesc)
    (hty : t₁.type = t₂.type)
    (hh : (t₁.priority = some "high") = (t₂.priority = some "high"))
    (hpm : premGE5000 t₁.premium = premGE5000 t₂.premium) (existingTasks : List ETask) :
    priorityWeightedAssignment roster t₁ existingTasks
      = priorityWeightedAssignment roster t₂ existingTasks := by
  unfold priorityWeightedAssignment calculateMemberScores
  rw [findSpecialtyMatches_congr roster t₁ t₂ hty hpm]
  cases findSpecialtyMatches roster t₂ with
  | error e => rfl
  | ok ms => simp only [memberScore_congr t₁ t₂ hh hpm]

theorem hybrid_congr (roster : Roster) (t₁ t₂ : TaskDesc)
    (hty : t₁.type = t₂.type)
    (hml : getPriorityMultiplier t₁.priority = getPriorityMultiplier t₂.priority)
    (hpm : premGE5000 t₁.premium = premGE5000 t₂.premium) (existingTasks : List ETask) :
    hybridAssignment roster t₁ existingTasks = hybridAssignment roster t₂ existingTasks := by
  unfold hybridAssignment
  rw [findSpecialtyMatches_congr roster t₁ t₂ hty hpm]
  cases findSpecialtyMatches roster t₂ with
  | error e => rfl
  | ok ms => simp only [hybridMemberScore_congr t₁ t₂ hml hpm]

/-! ### Each strategy returns a roster member on a non-empty roster when the
task type is present. -/

theorem roundRobin_ok (roster : Roster) (idx : Nat) (hr : roster ≠ []) :
    ∃ n, roundRobinAssignment roster idx = some n ∧ n ∈ roster.map Prod.fst := by
  unfold roundRobinAssignment
  have hpos : 0 < roster.length := List.length_pos.mpr hr
  have hlt : idx % roster.length < (roster.map Prod.fst).length := by
    rw [List.length_map]
    exact Nat.mod_lt idx hpos
  rw [List.get?_eq_get hlt]
  exact ⟨_, rfl, List.get_mem _ _ _⟩

theorem analyze_ne_nil (roster : Roster) (existingTasks : List ETask) (hr : roster ≠ []) :
    analyzeCurrentWorkload roster existingTasks ≠ [] := by
  unfold analyzeCurrentWorkload
  simpa using hr

theorem name_mem_of_mem_analysis (roster : Roster) (existingTasks : List ETask)
    (st : WorkloadStat) (h : st ∈ analyzeCurrentWorkload roster existingTasks) :
    st.name ∈ roster.map Prod.fst := by
  rw [← analyze_names roster existingTasks]
  exact List.mem_map_of_mem _ h

theorem loadBalanced_ok (roster : Roster) (task : TaskDesc) (existingTasks : List ETask)
    (hr : roster ≠ []) :
    ∃ n, loadBalancedAssignment roster task existingTasks = .ok (some n)
      ∧ n ∈ roster.map Prod.fst := by
  unfold loadBalancedAssignment
  cases hE : getAvailableMembers (analyzeCurrentWorkload roster existingTasks) with
  | cons st rest =>
    refine ⟨st.name, rfl, ?_⟩
    have hmem : st ∈ getAvailableMembers (analyzeCurrentWorkload roster existingTasks) := by
      rw [hE]; exact List.mem_cons_self st rest
    unfold getAvailableMembers at hmem
    have hwa := List.mem_of_mem_filter ((mem_stableSort _ _ _).mp hmem)
    exact name_mem_of_mem_analysis roster existingTasks st hwa
  | nil =>
    unfold getLeastLoadedMember
    cases hS : stableSort utilAsc (analyzeCurrentWorkload roster existingTasks) with
    | nil => exact absurd hS (stableSort_ne_nil _ _ (analyze_ne_nil roster existingTasks hr))
    | cons st rest =>
      refine ⟨st.name, rfl, ?_⟩
      have hmem : st ∈ stableSort utilAsc (analyzeCurrentWorkload roster existingTasks) := by
        rw [hS]; exact List.mem_cons_self st rest
      exact name_mem_of_mem_analysis roster existingTasks st ((mem_stableSort _ _ _).mp hmem)

theorem specialtyFirst_ok (roster : Roster) (task : TaskDesc) (existingTasks : List ETask)
    (hr : roster ≠ []) (hty : task.type.isSome) :
    ∃ n, specialtyFirstAssignment roster task existingTasks = .ok (some n)
      ∧ n ∈ roster.map Prod.fst := by
  obtain ⟨s, hs⟩ := Option.isSome_iff_exists.mp hty
  unfold specialtyFirstAssignment
  have hok : findSpecialtyMatches roster task
      = .ok ((roster.filter
          (fun p => memberMatchesTask s task.premium p.2.specialties)).map (·.1)) := by
    simp [findSpecialtyMatches, hr, hs]
  rw [hok]
  dsimp only
  cases hA : availableSpecialists roster
      ((roster.filter (fun p => memberMatchesTask s task.premium p.2.specialties)).map (·.1))
      existingTasks with
  | nil => exact loadBalanced_ok roster task existingTasks hr
  | cons st rest =>
    dsimp only
    unfold getLeastLoadedFromListStats
    cases hS : stableSort utilAsc (st :: rest) with
    | nil => exact absurd hS (stableSort_ne_nil _ _ (by simp))
    | cons st2 rest2 =>
      refine ⟨st2.name, rfl, ?_⟩
      have hmem2 : st2 ∈ stableSort utilAsc (st :: rest) := by
        rw [hS]; exact List.mem_cons_self st2 rest2
      have hmem3 : st2 ∈ st :: rest := (mem_stableSort _ _ _).mp hmem2
      rw [← hA] at hmem3
      unfold availableSpecialists at hmem3
      have hwa := List.mem_of_mem_filter (List.mem_of_mem_filter hmem3)
      exact name_mem_of_mem_analysis roster existingTasks st2 hwa

theorem priorityWeighted_ok (roster : Roster) (task : TaskDesc) (existingTasks : List ETask)
    (hr : roster ≠ []) (hty : task.type.isSome) :
    ∃ n, priorityWeightedAssignment roster task existingTasks = .ok (some n)
      ∧ n ∈ roster.map Prod.fst := by
  obtain ⟨s, hs⟩ := Option.isSome_iff_exists.mp hty
  unfold priorityWeightedAssignment calculateMemberScores
  have hok : findSpecialtyMatches roster task
      = .ok ((roster.filter
          (fun p => memberMatchesTask s task.premium p.2.specialties)).map (·.1)) := by
    simp [findSpecialtyMatches, hr, hs]
  rw [hok]
  dsimp only
  set ms := (roster.filter (fun p => memberMatchesTask s task.premium p.2.specialties)).map (·.1)
  set scores := roster.map
    (fun p => (p.1, memberScore task (ms.contains p.1) (statFor existingTasks p))) with hscores
  have hne : scores ≠ [] := by
    rw [hscores]; simpa using hr
  obtain ⟨n, hpick, hmem⟩ := pickFirstMax_mem scores hne
  refine ⟨n, by rw [hpick], ?_⟩
  rw [hscores, List.map_map] at hmem
  simpa [Function.comp] using hmem

theorem hybrid_ok (roster : Roster) (task : TaskDesc) (existingTasks : List ETask)
    (hr : roster ≠ []) (hty : task.type.isSome) :
    ∃ n, hybridAssignment roster task existingTasks = .ok (some n)
      ∧ n ∈ roster.map Prod.fst := by
  obtain ⟨s, hs⟩ := Option.isSome_iff_exists.mp hty
  unfold hybridAssignment
  have hok : findSpecialtyMatches roster task
      = .ok ((roster.filter
          (fun p => memberMatchesTask s task.premium p.2.specialties)).map (·.1)) := by
    simp [findSpecialtyMatches, hr, hs]
  rw [hok]
  dsimp only
  set ms := (roster.filter (fun p => memberMatchesTask s task.premium p.2.specialties)).map (·.1)
  set scores := roster.map (fun p =>
    (p.1, hybridMemberScore p.1 (ms.contains p.1)
      (statFor existingTasks p).utilizationPercent task)) with hscores
  have hne : scores ≠ [] := by
    rw [hscores]; simpa using hr
  obtain ⟨n, hpick, hmem⟩ := pickFirstMax_mem scores hne
  refine ⟨n, by rw [hpick], ?_⟩
  rw [hscores, List.map_map] at hmem
  simpa [Function.comp] using hmem

/-- Claim C3 counterexample: with an empty roster, the hybrid strategy
(the default) silently returns `undefined` (`Except.ok none`) instead of
failing with any error: no `EmptyRosterError` exists in the source. -/
theorem claim3_counterexample_empty_roster_silent :
    hybridAssignment [] ⟨some "nsf", some "high", some 6000⟩ [] = .ok none := rfl

/-- Claim C3 amended: on an empty roster, round-robin, priority-weighted
and hybrid silently return `undefined`, while load-balanced and
specialty-first throw a `TypeError` (reading `.name` of `undefined`);
none of the five strategies produces a dedicated `EmptyRosterError`. -/
theorem claim3_amended_empty_roster_behavior :
    ∀ (task : TaskDesc) (existingTasks : List ETask) (idx : Nat),
      roundRobinAssignment [] idx = none
      ∧ priorityWeightedAssignment [] task existingTasks = .ok none
      ∧ hybridAssignment [] task existingTasks = .ok none
      ∧ loadBalancedAssignment [] task existingTasks = .error ()
      ∧ specialtyFirstAssignment [] task existingTasks = .error () := by
  intro task existingTasks idx
  exact ⟨rfl, rfl, rfl, rfl, rfl⟩

/-- The priority multiplier is positive in every branch. -/
theorem getPriorityMultiplier_pos (priority : Option String) :
    0 < getPriorityMultiplier priority := by
  unfold getPriorityMultiplier
  split
  · norm_num
  · split
    · norm_num
    · split <;> norm_num

/-- Claim C6 counterexample: a member with no specialty match and no
high-value bonus scores 0 both just under and above the 150% utilization
mark, so crossing 150% does not strictly decrease the score for every
member with fixed bonus factors. -/
theorem claim6_counterexample_zero_score_not_strict :
    ¬ (hybridMemberScore "Stephen Brown" false 151 ⟨some "misc", some "medium", some 0⟩
        < hybridMemberScore "Stephen Brown" false 149 ⟨some "misc", some "medium", some 0⟩) := by
  decide

/-- Claim C6 amended: the hybrid overload penalties are multiplicative —
the score is the pre-penalty score times 1/2 once utilization exceeds
100% and times a further 3/10 once it exceeds 150% — and a member whose
utilization crosses 150% scores strictly below an identical member just
under 150% provided the member has a positive pre-penalty score, i.e. is
a specialty match or receives the +30 bonus (for a member with neither,
both scores are 0). -/
theorem claim6_amended_overload_penalties :
    ∀ (member : String) (isSpecialist : Bool) (task : TaskDesc) (u u₁ u₂ : ℚ),
      (hybridMemberScore member isSpecialist u task
        = ((max 0 (100 - u) + (if isSpecialist then (50 : ℚ) else 0)
            + (if member == "Mark Vallejo" && premGE5000 task.premium then (30 : ℚ) else 0))
              * getPriorityMultiplier task.priority)
          * (if 100 < u then (1/2 : ℚ) else 1) * (if 150 < u then (3/10 : ℚ) else 1))
      ∧ (100 < u₁ → u₁ ≤ 150 → 150 < u₂ →
          (isSpecialist = true ∨ (member == "Mark Vallejo" && premGE5000 task.premium) = true) →
          hybridMemberScore member isSpecialist u₂ task
            < hybridMemberScore member isSpecialist u₁ task) := by
  intro member isSpecialist task u u₁ u₂
  constructor
  · unfold hybridMemberScore
    by_cases h1 : (100 : ℚ) < u <;> by_cases h2 : (150 : ℚ) < u <;>
      simp [h1, h2] <;> ring
  · intro h1 h2 h3 hpos
    unfold hybridMemberScore
    have hb1 : max 0 (100 - u₁) = 0 := max_eq_left (by linarith)
    have hb2 : max 0 (100 - u₂) = 0 := max_eq_left (by linarith)
    have h100 : (100 : ℚ) < u₂ := by linarith
    have hn2 : ¬ (150 : ℚ) < u₁ := by linarith
    simp only [hb1, hb2, h1, h3, h100, hn2, if_true, if_false, zero_add]
    have hm := getPriorityMultiplier_pos task.priority
    set b₅ : ℚ := (if isSpecialist then (50 : ℚ) else 0) with hb5
    set b₃ : ℚ := (if member == "Mark Vallejo" && premGE5000 task.premium then (30 : ℚ) else 0)
      with hb3
    have hb : 0 < b₅ + b₃ := by
      rcases hpos with hs | hs
      · have : b₅ = 50 := by rw [hb5, hs]; rfl
        have : (0:ℚ) ≤ b₃ := by rw [hb3]; split <;> norm_num
        nlinarith
      · have : b₃ = 30 := by rw [hb3, hs]; rfl
        have : (0:ℚ) ≤ b₅ := by rw [hb5]; split <;> norm_num
        nlinarith
    nlinarith [mul_pos hb hm]

/-- Witness for C6 at Mark Vallejo with a high-priority high-premium task,
utilizations 140% and 160%. -/
theorem claim6_witness :
    ((100 : ℚ) < 140 ∧ (140 : ℚ) ≤ 150 ∧ (150 : ℚ) < 160)
    ∧ hybridMemberScore "Mark Vallejo" true 160 ⟨some "t", some "high", some 6000⟩
        < hybridMemberScore "Mark Vallejo" true 140 ⟨some "t", some "high", some 6000⟩ :=
  ⟨by norm_num,
    (claim6_amended_overload_penalties "Mark Vallejo" true ⟨some "t", some "high", some 6000⟩
      0 140 160).2 (by norm_num) (by norm_num) (by norm_num) (Or.inl rfl)⟩

/-- Claim C10 counterexample: the empty string is not one of the five
recognised strategy identifiers, yet `distributeTask` with strategy `""`
does not behave like the hybrid strategy: `""` is falsy in JS, so the call
falls back to the service's current strategy (here previously set to
round-robin, legal via `setDistributionStrategy`). -/
theorem claim10_counterexample_empty_string_strategy :
    ("" ∉ ["round_robin", "load_balanced", "specialty_first", "priority_weighted", "hybrid"])
    ∧ distributeTask RETENTION_TEAM "round_robin" (some "")
        ⟨some "nsf", some "medium", some 0⟩ [] 0 = .ok (some "Mark Vallejo")
    ∧ distributeTask RETENTION_TEAM "round_robin" (some "hybrid")
        ⟨some "nsf", some "medium", some 0⟩ [] 0 = .ok (some "Monica Archuleta") := by
  exact ⟨by decide, by decide, by decide⟩

/-- Claim C10 amended: for every strategy string that is neither one of the
five recognised identifiers nor the (falsy) empty string, `distributeTask`
returns exactly the hybrid assignment, for every roster, current strategy,
task and snapshot. -/
theorem claim10_amended_unknown_strategy_is_hybrid :
    ∀ (roster : Roster) (currentStrategy s : String) (task : TaskDesc)
      (existingTasks : List ETask) (idx : Nat),
      s ∉ ["round_robin", "load_balanced", "specialty_first", "priority_weighted", "hybrid"] →
      s ≠ "" →
      distributeTask roster currentStrategy (some s) task existingTasks idx
        = hybridAssignment roster task existingTasks := by
  intro roster currentStrategy s task existingTasks idx hmem hne
  simp only [List.mem_cons, List.not_mem_nil, or_false, not_or] at hmem
  obtain ⟨h1, h2, h3, h4, h5⟩ := hmem
  simp [distributeTask, hne, h1, h2, h3, h4, h5]

/-- Witness for C10 with the unrecognised strategy string "banana". -/
theorem claim10_witness :
    ("banana" ∉ ["round_robin", "load_balanced", "specialty_first", "priority_weighted", "hybrid"]
      ∧ "banana" ≠ "")
    ∧ distributeTask RETENTION_TEAM "hybrid" (some "banana")
        ⟨some "nsf", some "medium", some 0⟩ [] 0
      = hybridAssignment RETENTION_TEAM ⟨some "nsf", some "medium", some 0⟩ [] :=
  ⟨⟨by decide, by decide⟩,
    claim10_amended_unknown_strategy_is_hybrid RETENTION_TEAM "hybrid" "banana"
      ⟨some "nsf", some "medium", some 0⟩ [] 0 (by decide) (by decide)⟩

/-- Claim C2 counterexample: a task whose `type` field is absent makes the
specialty-matching strategies (specialty-first, priority-weighted, hybrid)
throw a `TypeError` from `task.type.includes(...)`, so it is not true that
no strategy throws for malformed task fields. -/
theorem claim2_counterexample_missing_type_throws :
    hybridAssignment RETENTION_TEAM ⟨none, some "high", some 6000⟩ [] = .error ()
    ∧ specialtyFirstAssignment RETENTION_TEAM ⟨none, some "high", some 6000⟩ [] = .error ()
    ∧ priorityWeightedAssignment RETENTION_TEAM ⟨none, some "high", some 6000⟩ [] = .error () :=
  ⟨rfl, rfl, rfl⟩

/-- Claim C2 amended: a task with missing premium is scored exactly as if
the premium were 0, and a task with missing priority exactly as if the
priority were "medium" (multiplier 1, no high-priority bonus), for every
strategy and snapshot; and provided the task's type field is present, no
strategy throws (round-robin and load-balanced never read the task at
all).  A task with an absent type field, however, makes the three
specialty-matching strategies throw. -/
theorem claim2_amended_lenient_premium_priority :
    ∀ (ty prio : Option String) (prem : Option ℚ) (existingTasks : List ETask),
      (loadBalancedAssignment RETENTION_TEAM ⟨ty, prio, none⟩ existingTasks
          = loadBalancedAssignment RETENTION_TEAM ⟨ty, prio, some 0⟩ existingTasks
        ∧ specialtyFirstAssignment RETENTION_TEAM ⟨ty, prio, none⟩ existingTasks
          = specialtyFirstAssignment RETENTION_TEAM ⟨ty, prio, some 0⟩ existingTasks
        ∧ priorityWeightedAssignment RETENTION_TEAM ⟨ty, prio, none⟩ existingTasks
          = priorityWeightedAssignment RETENTION_TEAM ⟨ty, prio, some 0⟩ existingTasks
        ∧ hybridAssignment RETENTION_TEAM ⟨ty, prio, none⟩ existingTasks
          = hybridAssignment RETENTION_TEAM ⟨ty, prio, some 0⟩ existingTasks)
      ∧ (loadBalancedAssignment RETENTION_TEAM ⟨ty, none, prem⟩ existingTasks
          = loadBalancedAssignment RETENTION_TEAM ⟨ty, some "medium", prem⟩ existingTasks
        ∧ specialtyFirstAssignment RETENTION_TEAM ⟨ty, none, prem⟩ existingTasks
          = specialtyFirstAssignment RETENTION_TEAM ⟨ty, some "medium", prem⟩ existingTasks
        ∧ priorityWeightedAssignment RETENTION_TEAM ⟨ty, none, prem⟩ existingTasks
          = priorityWeightedAssignment RETENTION_TEAM ⟨ty, some "medium", prem⟩ existingTasks
        ∧ hybridAssignment RETENTION_TEAM ⟨ty, none, prem⟩ existingTasks
          = hybridAssignment RETENTION_TEAM ⟨ty, some "medium", prem⟩ existingTasks)
      ∧ (∀ s : String, ty = some s →
          loadBalancedAssignment RETENTION_TEAM ⟨ty, prio, prem⟩ existingTasks ≠ .error ()
          ∧ specialtyFirstAssignment RETENTION_TEAM ⟨ty, prio, prem⟩ existingTasks ≠ .error ()
          ∧ priorityWeightedAssignment RETENTION_TEAM ⟨ty, prio, prem⟩ existingTasks ≠ .error ()
          ∧ hybridAssignment RETENTION_TEAM ⟨ty, prio, prem⟩ existingTasks ≠ .error ()) := by
  intro ty prio prem existingTasks
  have hr : RETENTION_TEAM ≠ [] := by simp [RETENTION_TEAM]
  have hpm0 : premGE5000 (none : Option ℚ) = premGE5000 (some 0) := by decide
  have hmed : getPriorityMultiplier none = getPriorityMultiplier (some "medium") := by decide
  have hhigh : ((none : Option String) = some "high") = ((some "medium" : Option String) = some "high") := by
    simp
  refine ⟨⟨?_, ?_, ?_, ?_⟩, ⟨?_, ?_, ?_, ?_⟩, ?_⟩
  · exact loadBalanced_congr RETENTION_TEAM _ _ existingTasks
  · exact specialtyFirst_congr RETENTION_TEAM ⟨ty, prio, none⟩ ⟨ty, prio, some 0⟩ rfl hpm0 existingTasks
  · exact priorityWeighted_congr RETENTION_TEAM ⟨ty, prio, none⟩ ⟨ty, prio, some 0⟩ rfl rfl hpm0 existingTasks
  · exact hybrid_congr RETENTION_TEAM ⟨ty, prio, none⟩ ⟨ty, prio, some 0⟩ rfl rfl hpm0 existingTasks
  · exact loadBalanced_congr RETENTION_TEAM _ _ existingTasks
  · exact specialtyFirst_congr RETENTION_TEAM ⟨ty, none, prem⟩ ⟨ty, some "medium", prem⟩ rfl rfl existingTasks
  · exact priorityWeighted_congr RETENTION_TEAM ⟨ty, none, prem⟩ ⟨ty, some "medium", prem⟩ rfl hhigh rfl existingTasks
  · exact hybrid_congr RETENTION_TEAM ⟨ty, none, prem⟩ ⟨ty, some "medium", prem⟩ rfl hmed rfl existingTasks
  · intro s hs
    have hty : (⟨ty, prio, prem⟩ : TaskDesc).type.isSome := by
      simp only [hs]; rfl
    obtain ⟨n1, h1, _⟩ := loadBalanced_ok RETENTION_TEAM ⟨ty, prio, prem⟩ existingTasks hr
    obtain ⟨n2, h2, _⟩ := specialtyFirst_ok RETENTION_TEAM ⟨ty, prio, prem⟩ existingTasks hr hty
    obtain ⟨n3, h3, _⟩ := priorityWeighted_ok RETENTION_TEAM ⟨ty, prio, prem⟩ existingTasks hr hty
    obtain ⟨n4, h4, _⟩ := hybrid_ok RETENTION_TEAM ⟨ty, prio, prem⟩ existingTasks hr hty
    exact ⟨by rw [h1]; simp, by rw [h2]; simp, by rw [h3]; simp, by rw [h4]; simp⟩

/-- Witness for C2 at a concrete task type "nsf" with absent premium and
priority. -/
theorem claim2_witness :
    ((some "nsf" : Option String) = some "nsf")
    ∧ hybridAssignment RETENTION_TEAM ⟨some "nsf", some "low", none⟩ []
        = hybridAssignment RETENTION_TEAM ⟨some "nsf", some "low", some 0⟩ []
    ∧ hybridAssignment RETENTION_TEAM ⟨some "nsf", some "low", none⟩ [] ≠ .error () := by
  refine ⟨rfl, (claim2_amended_lenient_premium_priority (some "nsf") (some "low") none []).1.2.2.2,
    ?_⟩
  have h := ((claim2_amended_lenient_premium_priority (some "nsf") (some "low") none []).2.2
    "nsf" rfl).2.2.2
  exact h

/-- Claim C4: for the configured roster, any task descriptor with a
present type string, and any snapshot, every strategy returns exactly one
name that is a member of the roster (for round-robin, at every counter
value). -/
theorem claim4_strategies_return_roster_member :
    ∀ (task : TaskDesc) (existingTasks : List ETask) (idx : Nat),
      task.type.isSome →
      (∃ n, roundRobinAssignment RETENTION_TEAM idx = some n
          ∧ n ∈ RETENTION_TEAM.map Prod.fst)
      ∧ (∃ n, loadBalancedAssignment RETENTION_TEAM task existingTasks = .ok (some n)
          ∧ n ∈ RETENTION_TEAM.map Prod.fst)
      ∧ (∃ n, specialtyFirstAssignment RETENTION_TEAM task existingTasks = .ok (some n)
          ∧ n ∈ RETENTION_TEAM.map Prod.fst)
      ∧ (∃ n, priorityWeightedAssignment RETENTION_TEAM task existingTasks = .ok (some n)
          ∧ n ∈ RETENTION_TEAM.map Prod.fst)
      ∧ (∃ n, hybridAssignment RETENTION_TEAM task existingTasks = .ok (some n)
          ∧ n ∈ RETENTION_TEAM.map Prod.fst) := by
  intro task existingTasks idx hty
  have hr : RETENTION_TEAM ≠ [] := by simp [RETENTION_TEAM]
  exact ⟨roundRobin_ok RETENTION_TEAM idx hr,
    loadBalanced_ok RETENTION_TEAM task existingTasks hr,
    specialtyFirst_ok RETENTION_TEAM task existingTasks hr hty,
    priorityWeighted_ok RETENTION_TEAM task existingTasks hr hty,
    hybrid_ok RETENTION_TEAM task existingTasks hr hty⟩

/-- Witness for C4 at a concrete high-premium nsf task, empty snapshot and
counter 0. -/
theorem claim4_witness :
    ((⟨some "nsf", some "high", some 5000⟩ : TaskDesc).type.isSome = true)
    ∧ ((∃ n, roundRobinAssignment RETENTION_TEAM 0 = some n
          ∧ n ∈ RETENTION_TEAM.map Prod.fst)
      ∧ (∃ n, loadBalancedAssignment RETENTION_TEAM ⟨some "nsf", some "high", some 5000⟩ []
            = .ok (some n) ∧ n ∈ RETENTION_TEAM.map Prod.fst)
      ∧ (∃ n, specialtyFirstAssignment RETENTION_TEAM ⟨some "nsf", some "high", some 5000⟩ []
            = .ok (some n) ∧ n ∈ RETENTION_TEAM.map Prod.fst)
      ∧ (∃ n, priorityWeightedAssignment RETENTION_TEAM ⟨some "nsf", some "high", some 5000⟩ []
            = .ok (some n) ∧ n ∈ RETENTION_TEAM.map Prod.fst)
      ∧ (∃ n, hybridAssignment RETENTION_TEAM ⟨some "nsf", some "high", some 5000⟩ []
            = .ok (some n) ∧ n ∈ RETENTION_TEAM.map Prod.fst)) :=
  ⟨rfl, claim4_strategies_return_roster_member ⟨some "nsf", some "high", some 5000⟩ [] 0 rfl⟩

/-- Claim C5: for every snapshot and every configured roster member, the
analyzer's stat counts exactly the member's open assigned tasks and
satisfies utilizationPercent = assigned/capacity*100 and
available = max(0, capacity - assigned); in particular 0 open tasks give
utilization 0 and available = capacity, and assigned > capacity gives
utilization > 100 and available = 0. -/
theorem claim5_analyzer_utilization :
    ∀ (existingTasks : List ETask) (p : String × MemberData), p ∈ RETENTION_TEAM →
      statFor existingTasks p ∈ analyzeCurrentWorkload RETENTION_TEAM existingTasks
      ∧ (statFor existingTasks p).name = p.1
      ∧ (statFor existingTasks p).capacity = p.2.capacity
      ∧ (statFor existingTasks p).assigned
          = (existingTasks.filter
              (fun t => t.assignedTo == some p.1 && t.status == some "open")).length
      ∧ (statFor existingTasks p).utilizationPercent
          = ((statFor existingTasks p).assigned : ℚ)
              / ((statFor existingTasks p).capacity : ℚ) * 100
      ∧ ((statFor existingTasks p).available : Int)
          = max 0 (((statFor existingTasks p).capacity : Int)
              - ((statFor existingTasks p).assigned : Int))
      ∧ ((statFor existingTasks p).assigned = 0 →
          (statFor existingTasks p).utilizationPercent = 0
          ∧ (statFor existingTasks p).available = (statFor existingTasks p).capacity)
      ∧ ((statFor existingTasks p).capacity < (statFor existingTasks p).assigned →
          100 < (statFor existingTasks p).utilizationPercent
          ∧ (statFor existingTasks p).available = 0) := by
  intro existingTasks p hp
  have hcpos : 0 < p.2.capacity := by
    simp only [RETENTION_TEAM, List.mem_cons, List.not_mem_nil, or_false] at hp
    rcases hp with h | h | h <;> subst h <;> norm_num
  have hav : (statFor existingTasks p).available
      = (statFor existingTasks p).capacity - (statFor existingTasks p).assigned := rfl
  have hu : (statFor existingTasks p).utilizationPercent
      = ((statFor existingTasks p).assigned : ℚ)
          / ((statFor existingTasks p).capacity : ℚ) * 100 := rfl
  refine ⟨List.mem_map_of_mem _ hp, rfl, rfl, rfl, hu, by omega, ?_, ?_⟩
  · intro h0
    constructor
    · rw [hu, h0]
      norm_num
    · omega
  · intro hlt
    constructor
    · rw [hu]
      have hc : (0 : ℚ) < ((statFor existingTasks p).capacity : ℚ) := by
        have : (statFor existingTasks p).capacity = p.2.capacity := rfl
        rw [this]
        exact_mod_cast hcpos
      have ha : ((statFor existingTasks p).capacity : ℚ)
          < ((statFor existingTasks p).assigned : ℚ) := by exact_mod_cast hlt
      rw [div_mul_eq_mul_div, lt_div_iff hc]
      linarith
    · omega

/-- Witness for C5 at Monica Archuleta with an empty snapshot. -/
theorem claim5_witness :
    (("Monica Archuleta", (⟨["nsf", "payment-issues"], 20⟩ : MemberData)) ∈ RETENTION_TEAM)
    ∧ (statFor [] ("Monica Archuleta", ⟨["nsf", "payment-issues"], 20⟩)).utilizationPercent = 0
    ∧ (statFor [] ("Monica Archuleta", ⟨["nsf", "payment-issues"], 20⟩)).available = 20 := by
  have h := claim5_analyzer_utilization []
    ("Monica Archuleta", ⟨["nsf", "payment-issues"], 20⟩) (by decide)
  obtain ⟨-, -, hcap, -, -, -, h0, -⟩ := h
  obtain ⟨hu, hav⟩ := h0 rfl
  exact ⟨by decide, hu, by rw [hav, hcap]⟩

/-- The population standard deviation of a list of rationals, written in ℝ
following the spec's words ("the population standard deviation of
utilizationPercent across all roster members"), as the comparison point
for `calculateBalanceScore`. -/
noncomputable def popStdDev (l : List ℚ) : ℝ :=
  Real.sqrt ((l.map (fun u : ℚ =>
    ((u : ℝ) - (l.map (fun v : ℚ => (v : ℝ))).sum / (l.length : ℝ)) ^ 2)).sum / (l.length : ℝ))

theorem ratCast_list_sum (l : List ℚ) :
    ((l.sum : ℚ) : ℝ) = (l.map (fun q : ℚ => (q : ℝ))).sum := by
  induction l with
  | nil => simp
  | cons x xs ih => simp [ih]

/-- Claim C9: the balance score is max(0, 100 minus the population
standard deviation of the utilization percentages); in particular for
utilizations [0%, 100%] the mean is 50, the standard deviation is 50, and
the score is 50. -/
theorem claim9_balance_score :
    (∀ workloadAnalysis : List WorkloadStat,
      calculateBalanceScore workloadAnalysis
        = max 0 (100 - popStdDev (workloadAnalysis.map (·.utilizationPercent))))
    ∧ calculateBalanceScore
        [⟨"A", 10, 0, 0, 10, 0, 0, 0, 0, 0, 0, []⟩, ⟨"B", 10, 10, 100, 0, 0, 0, 10, 10, 0, 0, []⟩]
      = 50 := by
  have hgen : ∀ workloadAnalysis : List WorkloadStat,
      calculateBalanceScore workloadAnalysis
        = max 0 (100 - popStdDev (workloadAnalysis.map (·.utilizationPercent))) := by
    intro workloadAnalysis
    unfold calculateBalanceScore popStdDev
    dsimp only
    set l := workloadAnalysis.map (·.utilizationPercent) with hl
    have havg : (((l.sum / ((l.length : ℕ) : ℚ)) : ℚ) : ℝ)
        = (l.map (fun v : ℚ => (v : ℝ))).sum / ((l.length : ℕ) : ℝ) := by
      rw [Rat.cast_div, ratCast_list_sum, Rat.cast_natCast]
    have hvar : (((l.map (fun u => (u - l.sum / ((l.length : ℕ) : ℚ)) ^ 2)).sum
          / ((l.length : ℕ) : ℚ) : ℚ) : ℝ)
        = (l.map (fun u : ℚ =>
            ((u : ℝ) - (l.map (fun v : ℚ => (v : ℝ))).sum / ((l.length : ℕ) : ℝ)) ^ 2)).sum
          / ((l.length : ℕ) : ℝ) := by
      rw [Rat.cast_div, ratCast_list_sum, Rat.cast_natCast, List.map_map]
      congr 1
      refine congrArg List.sum ?_
      apply List.map_congr_left
      intro u hu
      simp only [Function.comp_apply]
      rw [Rat.cast_pow, Rat.cast_sub, havg]
    rw [hvar]
  refine ⟨hgen, ?_⟩
  rw [hgen]
  have hm : ([(⟨"A", 10, 0, 0, 10, 0, 0, 0, 0, 0, 0, []⟩ : WorkloadStat),
      ⟨"B", 10, 10, 100, 0, 0, 0, 10, 10, 0, 0, []⟩].map (·.utilizationPercent))
      = [(0 : ℚ), 100] := rfl
  rw [hm]
  unfold popStdDev
  simp only [List.map, List.sum_cons, List.sum_nil, List.length_cons, List.length_nil]
  norm_num
  rw [show (2500 : ℝ) = 50 ^ 2 by norm_num]
  rw [Real.sqrt_sq (by norm_num : (0 : ℝ) ≤ 50)]
  norm_num

/-! ### Helper facts for the redistribution engine -/

theorem except_bind_ok {ε α β : Type} (x : Except ε α) (g : α → Except ε β) (r : β)
    (h : x >>= g = .ok r) : ∃ a, x = .ok a ∧ g a = .ok r := by
  cases x with
  | error e => simp [Bind.bind, Except.bind] at h
  | ok a => exact ⟨a, rfl, by simpa [Bind.bind, Except.bind] using h⟩

theorem lookupCount_bumpCount_ne (counts : Counts) (n m : String) (d : Int) (h : m ≠ n) :
    lookupCount (bumpCount counts n d) m = lookupCount counts m := by
  unfold lookupCount bumpCount
  rw [List.find?_map]
  have hpred : ((fun p : String × Int => p.1 == m) ∘
      (fun p : String × Int => if p.1 = n then (p.1, p.2 + d) else p))
      = (fun p : String × Int => p.1 == m) := by
    funext p
    by_cases hp : p.1 = n <;> simp [hp]
  rw [hpred]
  cases hf : counts.find? (fun p => p.1 == m) with
  | none => rfl
  | some p =>
    have hkey := List.find?_some hf
    have hkey2 : p.1 = m := by simpa using hkey
    simp [hkey2, h]

theorem lookupCount_init (wa : List WorkloadStat) (st : WorkloadStat)
    (hnd : (wa.map (·.name)).Nodup) (hmem : st ∈ wa) :
    lookupCount (wa.map (fun s => (s.name, (s.assigned : Int)))) st.name
      = some (st.assigned : Int) := by
  induction wa with
  | nil => cases hmem
  | cons hd tl ih =>
    rcases List.mem_cons.mp hmem with heq | htl
    · subst heq
      simp [lookupCount, List.find?]
    · have hne : hd.name ≠ st.name := by
        intro hc
        have hm2 : st.name ∈ tl.map (·.name) := List.mem_map_of_mem _ htl
        rw [← hc] at hm2
        exact (List.nodup_cons.mp hnd).1 hm2
      have hnd2 : (tl.map (·.name)).Nodup := (List.nodup_cons.mp hnd).2
      have ihh := ih hnd2 htl
      unfold lookupCount at ihh ⊢
      rw [List.map_cons, List.find?_cons_of_neg]
      · exact ihh
      · simp [hne]

theorem jsSlice0_sublist (e : Int) (l : List α) : (jsSlice0 e l).Sublist l := by
  unfold jsSlice0
  split <;> exact List.take_sublist _ _

theorem jsSlice0_length_le (e : Int) (l : List α) (he : 0 ≤ e) :
    ((jsSlice0 e l).length : Int) ≤ e := by
  unfold jsSlice0
  rw [if_neg (by omega)]
  have := List.length_take_le e.toNat l
  omega

/-- A successful `moveStep` either skips the task (no underloaded target)
or appends exactly one entry from `oName` to a target in the underloaded
list and bumps the two counts. -/
theorem moveStep_cases (roster : Roster) (ul : List WorkloadStat) (oName : String)
    (acc : List Redistribution × Counts) (t : ETask) (res : List Redistribution × Counts)
    (h : moveStep roster ul oName acc t = .ok res) :
    (res = acc) ∨
    (∃ tgt, tgt ∈ ul.map (·.name)
      ∧ res.1 = acc.1 ++ [⟨t.id, oName, tgt, "Load balancing"⟩]
      ∧ res.2 = bumpCount (bumpCount acc.2 oName (-1)) tgt 1) := by
  unfold moveStep at h
  cases hF : findBestRedistributionTarget roster t ul acc.2 with
  | error e => rw [hF] at h; cases h
  | ok tgtOpt =>
    rw [hF] at h
    cases tgtOpt with
    | none =>
      left
      cases h
      rfl
    | some tgt =>
      right
      refine ⟨tgt, ?_, by cases h; rfl, by cases h; rfl⟩
      unfold findBestRedistributionTarget at hF
      cases hM : findSpecialtyMatches roster t.toTask with
      | error e => rw [hM] at hF; cases hF
      | ok ms =>
        rw [hM] at hF
        dsimp only at hF
        cases hfil : ul.filter (fun m => ms.contains m.name) with
        | cons m rest =>
          rw [hfil] at hF
          cases hF
          have : m ∈ ul.filter (fun m => ms.contains m.name) := by
            rw [hfil]; exact List.mem_cons_self m rest
          exact List.mem_map_of_mem _ (List.mem_of_mem_filter this)
        | nil =>
          rw [hfil] at hF
          cases hul : ul with
          | nil => rw [hul] at hF; cases hF
          | cons u rest =>
            rw [hul] at hF
            cases hF
            exact List.mem_map_of_mem _ (List.mem_cons_self u rest)

/-- What a successful run of the inner `slice.forEach` loop produces: the
pushed entries extend the accumulator, number at most the number of tasks
processed, all come from `oName` with task ids from the processed list,
and no count outside `oName` and the underloaded names changes. -/
theorem foldlM_moveStep_spec (roster : Roster) (ul : List WorkloadStat) (oName : String) :
    ∀ (L : List ETask) (acc res : List Redistribution × Counts),
      L.foldlM (moveStep roster ul oName) acc = .ok res →
      ∃ new, res.1 = acc.1 ++ new
        ∧ new.length ≤ L.length
        ∧ (∀ e ∈ new, e.fromName = oName ∧ ∃ t ∈ L, t.id = e.taskId)
        ∧ (∀ name, name ≠ oName → name ∉ ul.map (·.name) →
            lookupCount res.2 name = lookupCount acc.2 name) := by
  intro L
  induction L with
  | nil =>
    intro acc res h
    rw [List.foldlM_nil] at h
    cases h
    exact ⟨[], by simp, by simp, by simp, fun name _ _ => rfl⟩
  | cons t L ih =>
    intro acc res h
    rw [List.foldlM_cons] at h
    obtain ⟨mid, hmid, hrest⟩ := except_bind_ok _ _ _ h
    obtain ⟨new1, h1, hlen1, hmem1, hcnt1⟩ := ih mid res hrest
    rcases moveStep_cases roster ul oName acc t mid hmid with heq | ⟨tgt, htgt, hres1, hres2⟩
    · subst heq
      refine ⟨new1, h1, Nat.le_succ_of_le hlen1, ?_, hcnt1⟩
      intro e he
      obtain ⟨hfrom, t2, ht2, hid⟩ := hmem1 e he
      exact ⟨hfrom, t2, List.mem_cons_of_mem t ht2, hid⟩
    · refine ⟨⟨t.id, oName, tgt, "Load balancing"⟩ :: new1, ?_, ?_, ?_, ?_⟩
      · rw [h1, hres1]
        simp
      · simpa using Nat.succ_le_succ hlen1
      · intro e he
        rcases List.mem_cons.mp he with heq | he1
        · subst heq
          exact ⟨rfl, t, List.mem_cons_self t L, rfl⟩
        · obtain ⟨hfrom, t2, ht2, hid⟩ := hmem1 e he1
          exact ⟨hfrom, t2, List.mem_cons_of_mem t ht2, hid⟩
      · intro name hn hnul
        have hntgt : name ≠ tgt := by
          intro hc
          rw [hc] at hnul
          exact hnul htgt
        rw [hcnt1 name hn hnul, hres2,
          lookupCount_bumpCount_ne _ tgt name 1 hntgt,
          lookupCount_bumpCount_ne _ oName name (-1) hn]

/-- What one overloaded member's turn produces: at most
`floor(assigned * 0.2)` entries (reading the member's live count), all
sourced from that member's open tasks of the snapshot, and counts outside
the member and the underloaded names untouched. -/
theorem processOverloaded_spec (roster : Roster) (existingTasks : List ETask)
    (ul : List WorkloadStat) (acc res : List Redistribution × Counts) (o : WorkloadStat)
    (hlook : lookupCount acc.2 o.name = some (o.assigned : Int))
    (h : processOverloaded roster existingTasks ul acc o = .ok res) :
    ∃ new, res.1 = acc.1 ++ new
      ∧ ((new.length : Int) ≤ Int.floor ((o.assigned : ℚ) * (1/5)))
      ∧ (∀ e ∈ new, e.fromName = o.name
          ∧ ∃ t ∈ existingTasks, t.id = e.taskId ∧ t.assignedTo = some o.name
              ∧ t.status = some "open")
      ∧ (∀ name, name ≠ o.name → name ∉ ul.map (·.name) →
          lookupCount res.2 name = lookupCount acc.2 name) := by
  unfold processOverloaded at h
  dsimp only at h
  rw [hlook] at h
  dsimp only at h
  obtain ⟨new, h1, hlen, hmem, hcnt⟩ := foldlM_moveStep_spec roster ul o.name _ acc res h
  have hfl : 0 ≤ Int.floor ((o.assigned : ℚ) * (1/5)) := by
    apply Int.floor_nonneg.mpr
    positivity
  refine ⟨new, h1, ?_, ?_, hcnt⟩
  · have hsl := jsSlice0_length_le (Int.floor ((o.assigned : ℚ) * (1/5)))
      (stableSort prioLe (existingTasks.filter
        (fun t => t.assignedTo == some o.name && t.status == some "open"))) hfl
    have : (new.length : Int) ≤ ((jsSlice0 (Int.floor ((o.assigned : ℚ) * (1/5)))
        (stableSort prioLe (existingTasks.filter
          (fun t => t.assignedTo == some o.name && t.status == some "open")))).length : Int) := by
      exact_mod_cast hlen
    exact le_trans this hsl
  · intro e he
    obtain ⟨hfrom, t, ht, hid⟩ := hmem e he
    have ht2 : t ∈ stableSort prioLe (existingTasks.filter
        (fun t => t.assignedTo == some o.name && t.status == some "open")) :=
      (jsSlice0_sublist _ _).mem ht
    have ht3 : t ∈ existingTasks.filter
        (fun t => t.assignedTo == some o.name && t.status == some "open") :=
      (mem_stableSort _ _ _).mp ht2
    have ht4 : t ∈ existingTasks := List.mem_of_mem_filter ht3
    have hp := List.of_mem_filter ht3
    rw [Bool.and_eq_true] at hp
    refine ⟨hfrom, t, ht4, hid, ?_, ?_⟩
    · simpa using hp.1
    · simpa using hp.2

/-- What the whole `overloaded.forEach` loop produces, given that the
overloaded names are distinct, disjoint from the underloaded names, and
carried in the counts with their analyzer values. -/
theorem foldlM_processOverloaded_spec (roster : Roster) (existingTasks : List ETask)
    (ul : List WorkloadStat) :
    ∀ (overList : List WorkloadStat) (acc res : List Redistribution × Counts),
      (overList.map (·.name)).Nodup →
      (∀ o ∈ overList, o.name ∉ ul.map (·.name)) →
      (∀ o ∈ overList, lookupCount acc.2 o.name = some (o.assigned : Int)) →
      overList.foldlM (processOverloaded roster existingTasks ul) acc = .ok res →
      ∃ new, res.1 = acc.1 ++ new
        ∧ (∀ e ∈ new, ∃ o ∈ overList, e.fromName = o.name
            ∧ ∃ t ∈ existingTasks, t.id = e.taskId ∧ t.assignedTo = some o.name
                ∧ t.status = some "open")
        ∧ (∀ o ∈ overList, ((new.filter (fun e => e.fromName == o.name)).length : Int)
            ≤ Int.floor ((o.assigned : ℚ) * (1/5))) := by
  intro overList
  induction overList with
  | nil =>
    intro acc res hnd hdisj hlook h
    rw [List.foldlM_nil] at h
    cases h
    exact ⟨[], by simp, by simp, by simp⟩
  | cons o rest ih =>
    intro acc res hnd hdisj hlook h
    rw [List.foldlM_cons] at h
    obtain ⟨mid, hmid, hrest⟩ := except_bind_ok _ _ _ h
    obtain ⟨new0, h0, hlen0, hmem0, hcnt0⟩ := processOverloaded_spec roster existingTasks ul
      acc mid o (hlook o (List.mem_cons_self o rest)) hmid
    have hndo : o.name ∉ rest.map (·.name) := (List.nodup_cons.mp (by simpa using hnd)).1
    have hndr : (rest.map (·.name)).Nodup := (List.nodup_cons.mp (by simpa using hnd)).2
    have hlook1 : ∀ o2 ∈ rest, lookupCount mid.2 o2.name = some (o2.assigned : Int) := by
      intro o2 ho2
      have hne : o2.name ≠ o.name := by
        intro hc
        rw [← hc] at hndo
        exact hndo (List.mem_map_of_mem _ ho2)
      rw [hcnt0 o2.name hne (hdisj o2 (List.mem_cons_of_mem o ho2))]
      exact hlook o2 (List.mem_cons_of_mem o ho2)
    obtain ⟨new1, h1, hmem1, hbound1⟩ := ih mid res hndr
      (fun o2 ho2 => hdisj o2 (List.mem_cons_of_mem o ho2)) hlook1 hrest
    refine ⟨new0 ++ new1, by rw [h1, h0, List.append_assoc], ?_, ?_⟩
    · intro e he
      rcases List.mem_append.mp he with he0 | he1
      · obtain ⟨hfrom, hsrc⟩ := hmem0 e he0
        exact ⟨o, List.mem_cons_self o rest, hfrom, hsrc⟩
      · obtain ⟨o2, ho2, hfrom, hsrc⟩ := hmem1 e he1
        exact ⟨o2, List.mem_cons_of_mem o ho2, hfrom, hsrc⟩
    · intro o2 ho2
      rw [List.filter_append, List.length_append]
      rcases List.mem_cons.mp ho2 with heq | ho2r
      · subst heq
        have hf0 : new0.filter (fun e => e.fromName == o2.name) = new0 := by
          apply List.filter_eq_self.mpr
          intro e he
          simpa using (hmem0 e he).1
        have hf1 : new1.filter (fun e => e.fromName == o2.name) = [] := by
          apply List.filter_eq_nil.mpr
          intro e he
          obtain ⟨o3, ho3, hfrom, -⟩ := hmem1 e he
          simp only [beq_iff_eq, hfrom]
          intro hc
          rw [← hc] at hndo
          exact hndo (List.mem_map_of_mem _ ho3)
        rw [hf0, hf1]
        simpa using hlen0
      · have hf0 : new0.filter (fun e => e.fromName == o2.name) = [] := by
          apply List.filter_eq_nil.mpr
          intro e he
          have hfrom := (hmem0 e he).1
          simp only [beq_iff_eq, hfrom]
          intro hc
          rw [hc] at hndo
          exact hndo (List.mem_map_of_mem _ ho2r)
        rw [hf0]
        simpa using hbound1 o2 ho2r

/-- The general redistribution bounds: with distinct roster names and a
non-negative imbalance threshold, every proposed move is sourced from an
overloaded member's open tasks and each overloaded member sources at most
`floor(assigned * 0.2)` moves. -/
theorem redistributeTasks_spec (roster : Roster) (existingTasks : List ETask) (imb : ℚ)
    (l : List Redistribution) (hnd : (roster.map Prod.fst).Nodup) (himb : 0 ≤ imb)
    (h : redistributeTasks roster existingTasks imb = .ok l) :
    (∀ e ∈ l, ∃ t ∈ existingTasks,
        t.id = e.taskId ∧ t.assignedTo = some e.fromName ∧ t.status = some "open"
        ∧ ∃ st ∈ analyzeCurrentWorkload roster existingTasks,
            st.name = e.fromName ∧ 100 + imb < st.utilizationPercent)
    ∧ (∀ st ∈ analyzeCurrentWorkload roster existingTasks,
        100 + imb < st.utilizationPercent →
        ((l.filter (fun e => e.fromName == st.name)).length : Int)
          ≤ Int.floor ((st.assigned : ℚ) * (1/5))) := by
  unfold redistributeTasks at h
  cases hAux : redistributeTasksAux roster existingTasks imb with
  | error e => rw [hAux] at h; cases h
  | ok pr =>
    rw [hAux] at h
    have hl : pr.1 = l := by
      simpa [Except.map] using h
    unfold redistributeTasksAux at hAux
    dsimp only at hAux
    have hwnodup : ((analyzeCurrentWorkload roster existingTasks).map (·.name)).Nodup := by
      rw [analyze_names]
      exact hnd
    have hover_sub : ∀ o ∈ stableSort utilDesc
        ((analyzeCurrentWorkload roster existingTasks).filter
          (fun m => decide (100 + imb < m.utilizationPercent))),
        o ∈ analyzeCurrentWorkload roster existingTasks
          ∧ 100 + imb < o.utilizationPercent := by
      intro o ho
      have hm := (mem_stableSort _ _ _).mp ho
      have hp := List.of_mem_filter hm
      exact ⟨List.mem_of_mem_filter hm, by simpa using hp⟩
    have hunder_sub : ∀ u ∈ stableSort utilAsc
        ((analyzeCurrentWorkload roster existingTasks).filter
          (fun m => decide (m.utilizationPercent < 100 - imb))),
        u ∈ analyzeCurrentWorkload roster existingTasks
          ∧ u.utilizationPercent < 100 - imb := by
      intro u hu
      have hm := (mem_stableSort _ _ _).mp hu
      have hp := List.of_mem_filter hm
      exact ⟨List.mem_of_mem_filter hm, by simpa using hp⟩
    have hover_nodup : ((stableSort utilDesc
        ((analyzeCurrentWorkload roster existingTasks).filter
          (fun m => decide (100 + imb < m.utilizationPercent)))).map (·.name)).Nodup := by
      have hperm := (stableSort_perm utilDesc
        ((analyzeCurrentWorkload roster existingTasks).filter
          (fun m => decide (100 + imb < m.utilizationPercent)))).map (·.name)
      have hsub : (((analyzeCurrentWorkload roster existingTasks).filter
          (fun m => decide (100 + imb < m.utilizationPercent))).map (·.name)).Sublist
          ((analyzeCurrentWorkload roster existingTasks).map (·.name)) :=
        List.Sublist.map _ (List.filter_sublist _)
      exact hperm.nodup_iff.mpr (hwnodup.sublist hsub)
    have hdisj : ∀ o ∈ stableSort utilDesc
        ((analyzeCurrentWorkload roster existingTasks).filter
          (fun m => decide (100 + imb < m.utilizationPercent))),
        o.name ∉ (stableSort utilAsc
          ((analyzeCurrentWorkload roster existingTasks).filter
            (fun m => decide (m.utilizationPercent < 100 - imb)))).map (·.name) := by
      intro o ho hc
      obtain ⟨u, hu, huname⟩ := List.mem_map.mp hc
      have hou := hover_sub o ho
      have huu := hunder_sub u hu
      have heq : u = o := List.inj_on_of_nodup_map hwnodup huu.1 hou.1 (by rw [huname])
      rw [heq] at huu
      linarith [hou.2, huu.2]
    have hlook0 : ∀ o ∈ stableSort utilDesc
        ((analyzeCurrentWorkload roster existingTasks).filter
          (fun m => decide (100 + imb < m.utilizationPercent))),
        lookupCount ((analyzeCurrentWorkload roster existingTasks).map
          (fun st => (st.name, (st.assigned : Int)))) o.name = some (o.assigned : Int) :=
      fun o ho => lookupCount_init _ o hwnodup (hover_sub o ho).1
    obtain ⟨new, hres1, hmem, hbound⟩ := foldlM_processOverloaded_spec roster existingTasks _ _
      _ pr hover_nodup hdisj hlook0 hAux
    rw [List.nil_append] at hres1
    constructor
    · intro e he
      rw [← hl, hres1] at he
      obtain ⟨o, ho, hfrom, t, ht, hid, hassigned, hstatus⟩ := hmem e he
      have hou := hover_sub o ho
      exact ⟨t, ht, hid, by rw [hfrom]; exact hassigned, hstatus,
        o, hou.1, hfrom.symm, hou.2⟩
    · intro st hst hutil
      have hstover : st ∈ stableSort utilDesc
          ((analyzeCurrentWorkload roster existingTasks).filter
            (fun m => decide (100 + imb < m.utilizationPercent))) :=
        (mem_stableSort _ _ _).mpr (List.mem_filter.mpr ⟨hst, decide_eq_true hutil⟩)
      have hb := hbound st hstover
      rw [← hl, hres1]
      exact hb

/-- The roster of the concrete redistribution scenario of the spec: two
members of capacity 10. -/
def claim7Roster : Roster := [("A", ⟨[], 10⟩), ("B", ⟨[], 10⟩)]

/-- The snapshot of the concrete redistribution scenario: 20 open tasks
assigned to A (200% utilization) and one to B (10% utilization). -/
def claim7Tasks : List ETask :=
  (List.range 20).map (fun i => ⟨i + 1, some "t", some "low", some 0, some "A", some "open"⟩)
  ++ [⟨100, some "t", some "low", some 0, some "B", some "open"⟩]

/-- The four moves the engine proposes in the concrete scenario. -/
def claim7Entries : List Redistribution :=
  [⟨1, "A", "B", "Load balancing"⟩, ⟨2, "A", "B", "Load balancing"⟩,
   ⟨3, "A", "B", "Load balancing"⟩, ⟨4, "A", "B", "Load balancing"⟩]

/-- Claim C7: for every snapshot (distinct roster names, non-negative
imbalance threshold), the engine proposes at most
`floor(assignedCount * 0.2)` moves per overloaded member, each sourced
from that member's open tasks; in the concrete scenario of one member at
200% utilization (capacity 10, assigned 20, threshold 50) and one at 10%,
it returns at most 4 entries, all sourced from the overloaded member. -/
theorem claim7_redistribution_bounds :
    (∀ (roster : Roster) (existingTasks : List ETask) (imb : ℚ) (l : List Redistribution),
      (roster.map Prod.fst).Nodup → 0 ≤ imb →
      redistributeTasks roster existingTasks imb = .ok l →
      (∀ e ∈ l, ∃ t ∈ existingTasks,
          t.id = e.taskId ∧ t.assignedTo = some e.fromName ∧ t.status = some "open"
          ∧ ∃ st ∈ analyzeCurrentWorkload roster existingTasks,
              st.name = e.fromName ∧ 100 + imb < st.utilizationPercent)
      ∧ (∀ st ∈ analyzeCurrentWorkload roster existingTasks,
          100 + imb < st.utilizationPercent →
          ((l.filter (fun e => e.fromName == st.name)).length : Int)
            ≤ Int.floor ((st.assigned : ℚ) * (1/5))))
    ∧ (redistributeTasks claim7Roster claim7Tasks 50 = .ok claim7Entries
        ∧ claim7Entries.length ≤ 4 ∧ ∀ e ∈ claim7Entries, e.fromName = "A") := by
  refine ⟨fun roster existingTasks imb l hnd himb h =>
    redistributeTasks_spec roster existingTasks imb l hnd himb h, by decide, by decide, by decide⟩

/-- Witness for C7: the general bound applied to the concrete scenario,
where member A's analyzer count is 20 and `floor(20 * 0.2) = 4`. -/
theorem claim7_witness :
    ((claim7Roster.map Prod.fst).Nodup ∧ (0 : ℚ) ≤ 50
      ∧ redistributeTasks claim7Roster claim7Tasks 50 = .ok claim7Entries)
    ∧ (∀ st ∈ analyzeCurrentWorkload claim7Roster claim7Tasks,
        100 + 50 < st.utilizationPercent →
        ((claim7Entries.filter (fun e => e.fromName == st.name)).length : Int)
          ≤ Int.floor ((st.assigned : ℚ) * (1/5))) :=
  ⟨⟨by decide, by decide, by decide⟩,
    (claim7_redistribution_bounds.1 claim7Roster claim7Tasks 50 claim7Entries
      (by decide) (by decide) (by decide)).2⟩

/-- The roster of the C8 scenario: three members of capacity 10. -/
def claim8Roster : Roster := [("A", ⟨[], 10⟩), ("B", ⟨[], 10⟩), ("C", ⟨[], 10⟩)]

/-- The snapshot of the C8 scenario: 20 open tasks on A (200%), none on B
(0%), one on C (10%); B and C are both underloaded, B first. -/
def claim8Tasks : List ETask :=
  (List.range 20).map (fun i => ⟨i + 1, some "t", some "low", some 0, some "A", some "open"⟩)
  ++ [⟨100, some "t", some "low", some 0, some "C", some "open"⟩]

/-- Claim C8 (code bug): the engine does decrement the source's and
increment the target's in-memory assigned count after each move without
re-sorting the lists (in the scenario, A ends at 16 and B at 4), but —
against the source's own comment "Update workload analysis for next
iteration" — the updated counts never affect the target chosen for
subsequent tasks: `findBestRedistributionTarget` ignores its workload
analysis argument entirely, so all four moves target B even after B's
count has overtaken C's. -/
theorem claim8_counts_updated_but_targets_unaffected :
    (∀ (roster : Roster) (task : ETask) (underloadedMembers : List WorkloadStat)
        (counts1 counts2 : Counts),
      findBestRedistributionTarget roster task underloadedMembers counts1
        = findBestRedistributionTarget roster task underloadedMembers counts2)
    ∧ redistributeTasks claim8Roster claim8Tasks 50
        = .ok [⟨1, "A", "B", "Load balancing"⟩, ⟨2, "A", "B", "Load balancing"⟩,
               ⟨3, "A", "B", "Load balancing"⟩, ⟨4, "A", "B", "Load balancing"⟩]
    ∧ (redistributeTasksAux claim8Roster claim8Tasks 50).map (·.2)
        = .ok [("A", 16), ("B", 4), ("C", 1)] := by
  exact ⟨fun roster task ul counts1 counts2 => rfl, by decide, by decide⟩

end ClaimProofs
